import Mathlib

/-!
Verification model of the windowed raster I/O core of `rasterio/_io.pyx`
(classes `DatasetReaderBase` and `DatasetWriterBase` together with the
`io_multi_*` dispatch functions).

The embedding is shallow: Python/Cython code is translated into executable
Lean definitions.  Machine integers are modelled as `Int`/`Nat` (pixel
values and nodata values are `Int`; validity-mask bytes are `Nat`).  The
Python `float` arithmetic used for the boundless scaling factors is
modelled with exact integer fractions (see `pyRoundMulDiv`); every
concrete value exercised below is exactly representable in a float, so
the model and the floating-point code agree on all of them.
Fallible code returns `Except String`, mirroring the exceptions
raised by the source.  Each native GDAL transfer performed by a call is
recorded in a log of `NativeCall` values so that statements of the form
"no native transfer occurs" can be expressed.
-/

namespace Raster

/-- Pixel encodings supported by the dispatcher (the closed set of
`dtype` names handled by the `io_multi_*` functions of `_io.pyx`). -/
inductive DType where
  | uint8 | uint16 | int16 | uint32 | int32
  | float32 | float64
  | cint16 | cint32 | cfloat32 | cfloat64
deriving DecidableEq, Repr, Inhabited

/-- Lower bound of the representable range of an encoding, as reported by
`np.iinfo` for integer kinds and `np.finfo` for float/complex kinds
(`_io.pyx` lines 713-718).  The float bounds are the exact integer values
of the most negative finite float32/float64. -/
def dtypeMin : DType → Int
  | .uint8 => 0
  | .uint16 => 0
  | .uint32 => 0
  | .int16 => -32768
  | .int32 => -2147483648
  | .float32 => -((2 ^ 24 - 1) * 2 ^ 104)
  | .float64 => -((2 ^ 53 - 1) * 2 ^ 971)
  | .cint16 => -((2 ^ 53 - 1) * 2 ^ 971)
  | .cint32 => -((2 ^ 53 - 1) * 2 ^ 971)
  | .cfloat32 => -((2 ^ 24 - 1) * 2 ^ 104)
  | .cfloat64 => -((2 ^ 53 - 1) * 2 ^ 971)

/-- Upper bound of the representable range of an encoding (see `dtypeMin`). -/
def dtypeMax : DType → Int
  | .uint8 => 255
  | .uint16 => 65535
  | .uint32 => 4294967295
  | .int16 => 32767
  | .int32 => 2147483647
  | .float32 => (2 ^ 24 - 1) * 2 ^ 104
  | .float64 => (2 ^ 53 - 1) * 2 ^ 971
  | .cint16 => (2 ^ 53 - 1) * 2 ^ 971
  | .cint32 => (2 ^ 53 - 1) * 2 ^ 971
  | .cfloat32 => (2 ^ 24 - 1) * 2 ^ 104
  | .cfloat64 => (2 ^ 53 - 1) * 2 ^ 971

/-- Nodata coercion of `DatasetReaderBase.read` (`_io.pyx` lines 712-724):
a configured nodata value below the representable range of the band
encoding is replaced by the range minimum, one above it by the maximum;
in-range values pass through unchanged. -/
def clampNodata (d : DType) (v : Int) : Int :=
  if v < dtypeMin d then dtypeMin d
  else if dtypeMax d < v then dtypeMax d
  else v

/-- A window: a pair of half-open ranges
`((row_start, row_stop), (col_start, col_stop))` in dataset pixel space. -/
abbrev Window := (Int × Int) × (Int × Int)

/-- Modelled from the spec: `rasterio.windows.evaluate` is called by
`_io.pyx` but its definition is not part of the analyzed source.  Per the
spec's window model a window is a pair of half-open ranges measured
against the dataset extent, with relative (negative) bounds resolved
against the end of the extent, and a resolved range whose stop precedes
its start is invalid.  Clipping is not part of evaluation: the source
applies it separately (`windows.crop` in `read`, and the inline
`min`/`max` clamp of `read_masks` lines 963-966), which would be
redundant if evaluation already clipped. -/
def evalBound (v : Int) (extent : Int) : Int :=
  if v < 0 then v + extent else v

/-- Modelled from the spec: window evaluation against a `height × width`
extent (see `evalBound`). -/
def evaluateWin (w : Window) (height width : Int) : Except String Window :=
  let r0 := evalBound w.1.1 height
  let r1 := evalBound w.1.2 height
  let c0 := evalBound w.2.1 width
  let c1 := evalBound w.2.2 width
  if r1 < r0 then .error "invalid window row range"
  else if c1 < c0 then .error "invalid window col range"
  else .ok ((r0, r1), (c0, c1))

/-- Modelled from the spec: `rasterio.windows.crop` clips a resolved
window to `[0, height] × [0, width]`, exactly as the inline clamp of
`read_masks` (`_io.pyx` lines 963-966) does. -/
def cropWin (w : Window) (height width : Int) : Window :=
  ((min (max w.1.1 0) height, max 0 (min w.1.2 height)),
   (min (max w.2.1 0) width, max 0 (min w.2.2 width)))

/-- Overlap of a boundless window with the dataset extent, computed by
`read` (`_io.pyx` lines 822-826) with `max (min v extent) 0` per bound. -/
def overlapWin (w : Window) (height width : Int) : Window :=
  ((max (min w.1.1 height) 0, max (min w.1.2 height) 0),
   (max (min w.2.1 width) 0, max (min w.2.2 width) 0))

/-- A 2D plane of pixel values. -/
abbrev Plane := List (List Int)

/-- A band-major 3D pixel buffer, shaped `(bands, rows, cols)`. -/
abbrev Buf3 := List Plane

/-- A band-major 3D buffer of validity-mask bytes. -/
abbrev Buf3M := List (List (List Nat))

/-- A band-major 3D boolean mask (the inverted validity bytes attached to
masked results). -/
abbrev Buf3B := List (List (List Bool))

/-- Number of rows of (the first plane of) a 3D buffer. -/
def buf3H {α : Type} (b : List (List (List α))) : Nat :=
  (b.headD []).length

/-- Number of columns of (the first row of the first plane of) a 3D buffer. -/
def buf3W {α : Type} (b : List (List (List α))) : Nat :=
  ((b.headD []).headD []).length

/-- Total lookup in a 3D buffer with a default element. -/
def get3 {α : Type} (b : List (List (List α))) (i r c : Nat) (d : α) : α :=
  ((b.getD i []).getD r []).getD c d

/-- Total lookup in a 2D plane with default `0`. -/
def get2 (p : Plane) (r c : Nat) : Int :=
  (p.getD r []).getD c 0

/-- The data/extent part of a raster dataset, as exposed by the
`RasterDataset` collaborator: extent, band count, per-band encoding,
per-band nodata value, per-band GDAL mask-flag bitset, the color
interpretation facts the core consults, the pixel contents (what
`GDALDatasetRasterIO` reads in read mode), and the per-band validity-mask
bytes (what the GDAL mask-band path reads).  `raster b r c` is the value
of 1-based band `b` at row `r`, column `c`. -/
structure Dataset where
  height : Nat
  width : Nat
  count : Nat
  dtypes : List DType
  nodatavals : List (Option Int)
  maskFlags : List Nat
  colorinterp1Red : Bool
  colorinterp4Alpha : Bool
  raster : Nat → Nat → Nat → Int
  maskBytes : Nat → Nat → Nat → Nat

/-- The valid 1-based band indexes `[1, …, count]` (`self.indexes`). -/
def dsIndexes (ds : Dataset) : List Nat :=
  List.range' 1 ds.count

/-- GDAL mask-flag bits (rasterio `MaskFlags` / GDAL RFC 15). -/
def GMF_ALL_VALID : Nat := 1
/-- GDAL per-dataset mask-flag bit. -/
def GMF_PER_DATASET : Nat := 2
/-- GDAL alpha mask-flag bit. -/
def GMF_ALPHA : Nat := 4
/-- GDAL nodata mask-flag bit. -/
def GMF_NODATA : Nat := 8

/-- One native `GDALDatasetRasterIO`/mask-band transfer performed by a
call: direction-independent record of the requested pixel rectangle
(`xoff`, `yoff`, `width`, `height`), whether it used the mask-band path,
the number of bands moved, and the in-memory buffer's row/column sizes
(the native call's pitch arguments). -/
structure NativeCall where
  masks : Bool
  xoff : Int
  yoff : Int
  width : Int
  height : Int
  bufBands : Nat
  bufH : Nat
  bufW : Nat
deriving DecidableEq, Repr

/-- Parameter validation performed by the native library before any
transfer (modelled from GDAL's documented `RasterIO` contract, an
external collaborator): a non-positive window size, a window extending
beyond the raster, an empty band list or an empty buffer yield the error
class `3` (`CE_Failure`). -/
def gdalValidate (rasterH rasterW : Int) (xoff yoff width height : Int)
    (nbands bufH bufW : Nat) : Option Nat :=
  if nbands = 0 then some 3
  else if width ≤ 0 ∨ height ≤ 0 then some 3
  else if bufH = 0 ∨ bufW = 0 then some 3
  else if xoff < 0 ∨ yoff < 0 ∨ rasterW < xoff + width ∨ rasterH < yoff + height then
    some 3
  else none

/-- Contents moved by a native read transfer: for each band of the band
map, a `bufH × bufW` buffer sampled from the requested rectangle
(nearest-neighbour decimation when the buffer size differs from the
rectangle, modelled from GDAL's convention; the two coincide when the
sizes match, which is the case in every concrete statement below). -/
def sampleBuf {α : Type} (f : Nat → Nat → Nat → α) (bandmap : List Nat)
    (xoff yoff width height : Int) (bufH bufW : Nat) :
    List (List (List α)) :=
  bandmap.map fun b =>
    (List.range bufH).map fun r =>
      (List.range bufW).map fun c =>
        f b (yoff + (r : Int) * height / (bufH : Int)).toNat
          (xoff + (c : Int) * width / (bufW : Int)).toNat

/-- Exception message produced from a nonzero native return value
(`_io.pyx` lines 1142-1145: classes 1-3 are an I/O failure, class 4 a
null band). -/
def retvalMsg (rv : Nat) : String :=
  if rv = 4 then "NULL band" else "Read or write failed"

/-- The window preparation of `DatasetReaderBase._read` and
`DatasetWriterBase.write` (`_io.pyx` lines 1064-1074 and 1628-1638): the
window, when present, is evaluated (only — no clipping) and turned into
the `(xoff, yoff, width, height)` rectangle handed to the native
transfer; absent a window the full extent is used. -/
def ioRect (ds : Dataset) (wv : Option Window) :
    Except String (Int × Int × Int × Int) :=
  match wv with
  | some w => do
    let we ← evaluateWin w (ds.height : Int) (ds.width : Int)
    .ok (we.2.1, we.1.1, we.2.2 - we.2.1, we.1.2 - we.1.1)
  | none => .ok (0, 0, (ds.width : Int), (ds.height : Int))

/-- Per-band validation of `read` (`_io.pyx` lines 700-726): the band
index must be a member of the valid index set (the 1-based position in
`self.indexes` of `bidx` is `bidx - 1`), its encoding is collected, and
its nodata value is clamped into the encoding's representable range. -/
def resolveBand (ds : Dataset) (bidx : Nat) :
    Except String (DType × Option Int) :=
  if bidx ∈ dsIndexes ds then
    let d := ds.dtypes.getD (bidx - 1) DType.uint8
    .ok (d, (ds.nodatavals.getD (bidx - 1) none).map (clampNodata d))
  else .error "band index out of range"

/-- The per-band validation loop of `read`, over the requested index
list, failing at the first invalid index as the Python loop does. -/
def resolveBands (ds : Dataset) : List Nat →
    Except String (List (DType × Option Int))
  | [] => .ok []
  | b :: rest => do
    let p ← resolveBand ds b
    let ps ← resolveBands ds rest
    .ok (p :: ps)

/-- The shared-encoding rule of `read` and `write` (`_io.pyx` lines
729-734 and 1613-1618): more than one distinct encoding among the
requested bands is an error; none (an empty index list, reachable only
from `write`) falls back to the first band's encoding. -/
def uniqueDtype (ds : Dataset) (dts : List DType) : Except String DType :=
  match dts.dedup with
  | [] => .ok (ds.dtypes.getD 0 DType.uint8)
  | [d] => .ok d
  | _ => .error "more than one dtype found"

/-- The natural-shape computation of `read` (`_io.pyx` lines 736-750):
boundless windows use the unclipped requested span as-is (a negative span
is a numpy allocation error); non-boundless windows are evaluated and
cropped, and the cropped window replaces the request for the rest of the
call; no window means the full extent. -/
def resolveWinShape (ds : Dataset) (win? : Option Window) (boundless : Bool) :
    Except String (Nat × Nat × Option Window) :=
  match win? with
  | some w =>
    if boundless then
      let rows := w.1.2 - w.1.1
      let cols := w.2.2 - w.2.1
      if rows < 0 ∨ cols < 0 then .error "negative dimensions are not allowed"
      else .ok (rows.toNat, cols.toNat, some w)
    else do
      let we ← evaluateWin w (ds.height : Int) (ds.width : Int)
      let wc := cropWin we (ds.height : Int) (ds.width : Int)
      .ok ((wc.1.2 - wc.1.1).toNat, (wc.2.2 - wc.2.1).toNat, some wc)
  | none => .ok (ds.height, ds.width, none)

/-- A caller-supplied output array: its element encoding and contents. -/
structure OutArr where
  dtype : DType
  data : Buf3
deriving DecidableEq, Repr

/-- The all-valid test of the masked read path (`_io.pyx` lines 781-786):
the GDAL mask flags of EVERY band of the dataset — not only of the
requested bands — must contain `GMF_ALL_VALID`. -/
def allValidDS (ds : Dataset) : Bool :=
  (List.range ds.count).all fun i => (ds.maskFlags.getD i 0) &&& GMF_ALL_VALID == 1

/-- Output-buffer allocation of `read` (`_io.pyx` lines 791-796): a
`np.zeros` buffer of the natural shape whose band planes are filled with
the band's clamped nodata value when one is configured. -/
def prefill (rows cols : Nat) (nvs : List (Option Int)) : Buf3 :=
  nvs.map fun nv => List.replicate rows (List.replicate cols (nv.getD 0))

/-- A zero-filled buffer of the given shape (the model of `np.empty`
allocations; the source never exposes uninitialized contents in the
statements proved below). -/
def zeros3 (bands rows cols : Nat) : Buf3 :=
  List.replicate bands (List.replicate rows (List.replicate cols 0))

/-- Fill-value rule of the masked read path (`_io.pyx` lines 814-817): a
fill value is attached exactly when the (clamped) nodata values of the
requested bands form a single-element set whose element is not `None`. -/
def fillValueOf (nvs : List (Option Int)) : Option Int :=
  match nvs with
  | [] => none
  | v :: rest => if rest.all (· == v) then v else none

/-- Inversion of the fetched validity bytes, `~mask.astype(bool)`
(`_io.pyx` lines 808-810): a fetched validity
byte becomes a mask entry that is `true` (masked/invalid) exactly when
the byte is zero. -/
def invertBytes (b : Buf3M) : Buf3B :=
  b.map fun p => p.map fun row => row.map fun x => x == 0

/-- An all-`true` boolean mask of the same shape as the given buffer
(`np.ma.array(out, mask=True)`). -/
def fullMask (b : Buf3) : Buf3B :=
  b.map fun p => p.map fun row => row.map fun _ => true

/-- Placement of boundless overlap data into the destination buffer
(`_io.pyx` lines 871-874): per band, the `src` block replaces the
destination rectangle starting at `(roff, coff)`; entries outside it are
kept. -/
def overlay3 {α : Type} (dst src : List (List (List α))) (roff coff : Int) :
    List (List (List α)) :=
  let srcH := buf3H src
  let srcW := buf3W src
  (dst.zip (List.range dst.length)).map fun bp =>
    ((bp.1.zip (List.range bp.1.length)).map fun rp =>
      ((rp.1.zip (List.range rp.1.length)).map fun cp =>
        if roff ≤ (rp.2 : Int) ∧ (rp.2 : Int) < roff + (srcH : Int) ∧
            coff ≤ (cp.2 : Int) ∧ (cp.2 : Int) < coff + (srcW : Int) then
          ((src.getD bp.2 []).getD ((rp.2 : Int) - roff).toNat []).getD
            ((cp.2 : Int) - coff).toNat cp.1
        else cp.1))

/-- The result of a `read` call: the pixel buffer, the optional boolean
mask overlay and optional fill value of a masked result, and (as a ghost
observation) the raw validity bytes fetched by the mask-band transfer,
when one was performed. -/
structure ReadOut where
  data : Buf3
  mask : Option Buf3B
  fill : Option Int
  fetchedMaskBytes : Option Buf3M
deriving DecidableEq, Repr

deriving instance DecidableEq for Except

/-- A `read` run: the log of native transfers it performed (in order) and
its outcome. -/
structure ReadRun where
  log : List NativeCall
  res : Except String ReadOut
deriving DecidableEq, Repr

/-- The validated intermediate state of a `read` call, after the
request-checking stages (`_io.pyx` lines 686-796) and before any native
transfer: the effective index list, shared encoding, clamped per-band
nodata values, natural shape, the (possibly cropped and rebound) window,
the working output buffer, and the all-valid flag summary. -/
structure ReadPre where
  indexes : List Nat
  dtype : DType
  nvs : List (Option Int)
  rows : Nat
  cols : Nat
  windowVar : Option Window
  out : Buf3
  allValid : Bool

/-- The effective output array of `read` (`_io.pyx` lines 752-757): when
`out_shape` is supplied (normalized to 3D by prepending a band dimension
of 1 when it has length 2), a fresh buffer of that shape replaces the
absent `out`; otherwise the caller's `out` (if any) is used. -/
def readOutEff (dtype : DType) (out? : Option OutArr)
    (oshape? : Option (List Nat)) : Option OutArr :=
  match oshape? with
  | some sh =>
    let sh3 := if sh.length = 2 then 1 :: sh else sh
    some ⟨dtype, zeros3 (sh3.getD 0 0) (sh3.getD 1 0) (sh3.getD 2 0)⟩
  | none => out?

/-- Stages 1-4 of `read` (`_io.pyx` lines 686-796): index resolution and
the empty-index check, per-band validation, the shared-encoding rule,
natural-shape/window resolution, `out`/`out_shape` exclusivity, the
`out` dtype and band-count checks (only dimension 0 of a caller-supplied
buffer is compared against the natural shape), the mask-flag summary,
and allocation/prefill of the output buffer when none was supplied.
No native transfer happens in these stages. -/
def readPre (ds : Dataset) (idx? : Option (List Nat)) (out? : Option OutArr)
    (win? : Option Window) (oshape? : Option (List Nat)) (boundless : Bool) :
    Except String ReadPre :=
  let indexes := idx?.getD (dsIndexes ds)
  if indexes.isEmpty then .error "No indexes to read"
  else
    match resolveBands ds indexes with
    | .error e => .error e
    | .ok pairs =>
      match uniqueDtype ds (pairs.map Prod.fst) with
      | .error e => .error e
      | .ok dtype =>
        match resolveWinShape ds win? boundless with
        | .error e => .error e
        | .ok (rows, cols, wv) =>
          if out?.isSome ∧ oshape?.isSome then
            .error "out and out_shape are exclusive"
          else
            match readOutEff dtype out? oshape? with
            | some o =>
              if o.dtype ≠ dtype then
                .error "the array dtype does not match the file dtype"
              else if o.data.length ≠ indexes.length then
                .error "out shape does not match window shape"
              else
                .ok ⟨indexes, dtype, pairs.map Prod.snd, rows, cols, wv, o.data,
                  allValidDS ds⟩
            | none =>
              .ok ⟨indexes, dtype, pairs.map Prod.snd, rows, cols, wv,
                prefill rows cols (pairs.map Prod.snd), allValidDS ds⟩

/-- The direct transfer branch of `read` (`_io.pyx` lines 800-818), taken
whenever the call is not boundless or carries no window: one native data
transfer into the working buffer, and in masked mode either the all-valid
shortcut (no mask transfer, no mask overlay) or a second, parallel mask
transfer whose bytes are inverted into the boolean mask; the fill value
follows `fillValueOf`. -/
def directPath (ds : Dataset) (pre : ReadPre) (masked : Bool) : ReadRun :=
  match ioRect ds pre.windowVar with
  | .error e => ⟨[], .error e⟩
  | .ok (xoff, yoff, w, h) =>
    let oh := buf3H pre.out
    let ow := buf3W pre.out
    let call : NativeCall := ⟨false, xoff, yoff, w, h, pre.indexes.length, oh, ow⟩
    match gdalValidate (ds.height : Int) (ds.width : Int) xoff yoff w h
        pre.indexes.length oh ow with
    | some rv => ⟨[call], .error (retvalMsg rv)⟩
    | none =>
      let data := sampleBuf ds.raster pre.indexes xoff yoff w h oh ow
      if masked then
        if pre.allValid then
          ⟨[call], .ok ⟨data, none, fillValueOf pre.nvs, none⟩⟩
        else
          let mcall : NativeCall := ⟨true, xoff, yoff, w, h, pre.indexes.length, oh, ow⟩
          let bytes := sampleBuf ds.maskBytes pre.indexes xoff yoff w h oh ow
          ⟨[call, mcall], .ok ⟨data, some (invertBytes bytes), fillValueOf pre.nvs, some bytes⟩⟩
      else ⟨[call], .ok ⟨data, none, none, none⟩⟩

/-- Python `int(round(a * (n / d)))` on values where the float arithmetic
is exact: banker's rounding (ties to even, as Python `round`) of the
rational `a·n/d`, for a positive divisor `d`. -/
def pyRoundMulDiv (a n d : Int) : Int :=
  let p := a * n
  let f := p / d
  let r2 := 2 * (p % d)
  if r2 < d then f
  else if d < r2 then f + 1
  else if f % 2 = 0 then f else f + 1

/-- Python `int(a * (n / d))` on non-negative values where the float
arithmetic is exact: truncation toward zero, which for non-negative
operands and a positive divisor is floor division. -/
def pyTruncMulDiv (a n d : Int) : Int := a * n / d

/-- The boundless branch of `read` (`_io.pyx` lines 820-887).  The
overlap of the raw window with the extent is compared against the literal
`((0, 0), (0, 0))`: only that one shape of empty overlap skips the
transfer and returns the prefilled buffer (masked: under an all-`true`
mask).  Any other overlap — including degenerate empty ones — computes
the float scaling factors `out.shape[-2:] / win_shape[-2:]` (modelled as
exact fractions; see `pyRoundMulDiv`), allocates the scaled overlap
buffer, performs the native transfer(s), and pastes the result into the
destination at the computed offset. -/
def boundlessPath (ds : Dataset) (pre : ReadPre) (w : Window) (masked : Bool) :
    ReadRun :=
  let ov := overlapWin w (ds.height : Int) (ds.width : Int)
  if ov = ((0, 0), (0, 0)) then
    if masked then
      ⟨[], .ok ⟨pre.out, some (fullMask pre.out), fillValueOf pre.nvs, none⟩⟩
    else ⟨[], .ok ⟨pre.out, none, none, none⟩⟩
  else
    if pre.rows = 0 ∨ pre.cols = 0 then ⟨[], .error "float division by zero"⟩
    else
      let outH := buf3H pre.out
      let outW := buf3W pre.out
      let ovH := ov.1.2 - ov.1.1
      let ovW := ov.2.2 - ov.2.1
      let bufH := (pyRoundMulDiv ovH (outH : Int) (pre.rows : Int)).toNat
      let bufW := (pyRoundMulDiv ovW (outW : Int) (pre.cols : Int)).toNat
      match ioRect ds (some ov) with
      | .error e => ⟨[], .error e⟩
      | .ok (xoff, yoff, rw, rh) =>
        let call : NativeCall := ⟨false, xoff, yoff, rw, rh, pre.indexes.length, bufH, bufW⟩
        match gdalValidate (ds.height : Int) (ds.width : Int) xoff yoff rw rh
            pre.indexes.length bufH bufW with
        | some rv => ⟨[call], .error (retvalMsg rv)⟩
        | none =>
          let data := sampleBuf ds.raster pre.indexes xoff yoff rw rh bufH bufW
          let roff : Int :=
            if w.1.1 < 0 then pyTruncMulDiv (-w.1.1) (outH : Int) (pre.rows : Int) else 0
          let coff : Int :=
            if w.2.1 < 0 then pyTruncMulDiv (-w.2.1) (outW : Int) (pre.cols : Int) else 0
          let outData := overlay3 pre.out data roff coff
          if masked then
            let mcall : NativeCall := ⟨true, xoff, yoff, rw, rh, pre.indexes.length, bufH, bufW⟩
            let bytes := sampleBuf ds.maskBytes pre.indexes xoff yoff rw rh bufH bufW
            let m := overlay3 (fullMask pre.out) (invertBytes bytes) roff coff
            ⟨[call, mcall], .ok ⟨outData, some m, fillValueOf pre.nvs, some bytes⟩⟩
          else ⟨[call], .ok ⟨outData, none, none, none⟩⟩

/-- Model of `DatasetReaderBase.read` (`_io.pyx` lines 629-892), for a list of
band indexes (the scalar-index form wraps the index into a one-element
list and reshapes the result to 2D; the statements below are settled on
the list form).  Request validation happens first and performs no native
transfer; then either the direct branch (non-boundless, or no window) or
the boundless branch runs. -/
def read (ds : Dataset) (idx? : Option (List Nat)) (out? : Option OutArr)
    (win? : Option Window) (masked : Bool) (oshape? : Option (List Nat))
    (boundless : Bool) : ReadRun :=
  match readPre ds idx? out? win? oshape? boundless with
  | .error e => ⟨[], .error e⟩
  | .ok pre =>
    match win?, boundless with
    | some w, true => boundlessPath ds pre w masked
    | _, _ => directPath ds pre masked

/-- An in-memory numpy-style array living in the store of a `write` call:
its element encoding, number of dimensions, contents (a 2D array is kept
as a single-plane `Buf3`), and whether it is C-contiguous. -/
structure Arr where
  dtype : DType
  ndim : Nat
  data : Buf3
  contiguous : Bool
deriving DecidableEq, Repr

/-- A store of arrays; an array is identified by its index in the store.
Fresh arrays (the `np.array([src])` wrap and the `np.require` copy) are
appended at the end, and the native write transfer reads the buffer
without touching the store. -/
abbrev Store := List Arr

/-- The default (out-of-store) array. -/
def arrDefault : Arr := ⟨DType.uint8, 3, [], true⟩

/-- Model of `np.array([src])` (`_io.pyx` line 1601): a fresh C-contiguous array
with one more dimension wrapped around the source's contents. -/
def wrap2d (a : Arr) : Arr := ⟨a.dtype, a.ndim + 1, a.data, true⟩

/-- The per-band validation loop of `write` (`_io.pyx` lines 1607-1612):
membership of each requested index in the valid index set, collecting the
band encodings (no nodata handling on the write path). -/
def checkBandsW (ds : Dataset) : List Nat → Except String (List DType)
  | [] => .ok []
  | b :: rest =>
    if b ∈ dsIndexes ds then do
      let ds' ← checkBandsW ds rest
      .ok (ds.dtypes.getD (b - 1) DType.uint8 :: ds')
    else .error "band index out of range"

/-- One band plane applied to the raster by the native write transfer:
pixels of the requested rectangle take their values from the buffer plane
(nearest-neighbour scaling when the plane's size differs from the
rectangle; identity when they match), all other pixels are unchanged.
The write direction only reads the plane. -/
def writePlane (rast : Nat → Nat → Nat → Int) (b : Nat) (plane : Plane)
    (xoff yoff rw rh : Int) : Nat → Nat → Nat → Int :=
  let bH := plane.length
  let bW := (plane.headD []).length
  fun b' r c =>
    if b' = b ∧ yoff ≤ (r : Int) ∧ (r : Int) < yoff + rh ∧
        xoff ≤ (c : Int) ∧ (c : Int) < xoff + rw then
      (plane.getD (((r : Int) - yoff) * bH / rh).toNat []).getD
        (((c : Int) - xoff) * bW / rw).toNat 0
    else rast b' r c

/-- The native multi-band write transfer (`GDALDatasetRasterIO` in write
mode through `io_multi_*`, `_io.pyx` lines 172-333): buffer plane `i` is
stored into band `bandmap[i]`, sequentially in band-map order. -/
def gdalWriteData (rast : Nat → Nat → Nat → Int) (bandmap : List Nat)
    (buf : Buf3) (xoff yoff rw rh : Int) : Nat → Nat → Nat → Int :=
  (bandmap.zip buf).foldl (fun a bp => writePlane a bp.1 bp.2 xoff yoff rw rh) rast

/-- A `write` run: the final store, the (possibly updated) dataset, the
log of native transfers, and the error message when the call raised. -/
structure WriteRun where
  store : Store
  ds : Dataset
  log : List NativeCall
  err : Option String

/-- Model of `DatasetWriterBase.write` after index normalization (`_io.pyx` lines
1602-1693): the source must be 3D with one plane per requested index
(there is no empty-index check on this path); band membership, the
shared-encoding rule and the exact-dtype requirement follow; `np.require`
copies the source into a fresh array appended to the store when it is not
C-contiguous; the window, when present, is evaluated — not cropped — into
the native rectangle; and the native transfer stores buffer plane `i`
into band `indexes[i]`. -/
def writeBody (ds : Dataset) (indexes : List Nat) (store1 : Store)
    (bufId : Nat) (win? : Option Window) : WriteRun :=
  let src := store1.getD bufId arrDefault
  if src.ndim ≠ 3 ∨ src.data.length ≠ indexes.length then
    ⟨store1, ds, [], some "Source shape is inconsistent with given indexes"⟩
  else
    match checkBandsW ds indexes with
    | .error e => ⟨store1, ds, [], some e⟩
    | .ok dts =>
      match uniqueDtype ds dts with
      | .error e => ⟨store1, ds, [], some e⟩
      | .ok dtype =>
        if src.dtype ≠ dtype then
          ⟨store1, ds, [], some "the array dtype does not match the file dtype"⟩
        else
          let step2 : Store × Nat :=
            if src.contiguous then (store1, bufId)
            else (store1 ++ [⟨src.dtype, src.ndim, src.data, true⟩], store1.length)
          let store2 := step2.1
          let src2 := (step2.1.getD step2.2 arrDefault)
          match ioRect ds win? with
          | .error e => ⟨store2, ds, [], some e⟩
          | .ok (xoff, yoff, rw, rh) =>
            let bH := buf3H src2.data
            let bW := buf3W src2.data
            let call : NativeCall := ⟨false, xoff, yoff, rw, rh, indexes.length, bH, bW⟩
            match gdalValidate (ds.height : Int) (ds.width : Int) xoff yoff rw rh
                indexes.length bH bW with
            | some rv => ⟨store2, ds, [call], some (retvalMsg rv)⟩
            | none =>
              let raster := gdalWriteData ds.raster indexes src2.data xoff yoff rw rh
              ⟨store2, { ds with raster := raster }, [call], none⟩

/-- Index normalization of `DatasetWriterBase.write` (`_io.pyx` lines
1597-1601): no index list means all bands; a scalar index wraps the
source in a fresh one-element 3D array (`np.array([src])`) and becomes a
one-element list.  The rest of the call is `writeBody`. -/
def write (ds : Dataset) (store : Store) (srcId : Nat)
    (idx? : Option (List Nat ⊕ Nat)) (win? : Option Window) : WriteRun :=
  match idx? with
  | none => writeBody ds (dsIndexes ds) store srcId win?
  | some (.inl l) => writeBody ds l store srcId win?
  | some (.inr n) =>
    writeBody ds [n] (store ++ [wrap2d (store.getD srcId arrDefault)])
      store.length win?

/-- The non-boundless (or windowless) shape/window resolution of
`read_masks` (`_io.pyx` lines 956-970): the window is evaluated and then
clamped inline to `[0, height] × [0, width]`, and the clamped window
replaces the request; boundless windows use the raw span. -/
def resolveMaskWinShape (ds : Dataset) (win? : Option Window) (boundless : Bool) :
    Except String (Nat × Nat × Option Window) :=
  match win? with
  | some w =>
    if boundless then
      let rows := w.1.2 - w.1.1
      let cols := w.2.2 - w.2.1
      if rows < 0 ∨ cols < 0 then .error "negative dimensions are not allowed"
      else .ok (rows.toNat, cols.toNat, some w)
    else do
      let we ← evaluateWin w (ds.height : Int) (ds.width : Int)
      let minr := min (max we.1.1 0) (ds.height : Int)
      let maxr := max 0 (min we.1.2 (ds.height : Int))
      let minc := min (max we.2.1 0) (ds.width : Int)
      let maxc := max 0 (min we.2.2 (ds.width : Int))
      .ok ((maxr - minr).toNat, (maxc - minc).toNat, some ((minr, maxr), (minc, maxc)))
  | none => .ok (ds.height, ds.width, none)

/-- Model of `DatasetReaderBase.read_masks` (`_io.pyx` lines 895-1037) for a
single scalar band index without a caller buffer — the form
`dataset_mask` delegates to.  The result is the 2D validity-byte plane of
that band.  With no caller buffer the output has the natural shape, so
the boundless scaling factors are exactly `1`; the boundless placement
offset follows the source's `int(window_h*scaling_h) - data_h` formula
(lines 1025-1028). -/
def read_masks1 (ds : Dataset) (bidx : Nat) (win? : Option Window)
    (boundless : Bool) : Except String (List (List Nat)) := do
  let rcw ← resolveMaskWinShape ds win? boundless
  let rows := rcw.1
  let cols := rcw.2.1
  let wv := rcw.2.2
  if boundless = false ∨ win?.isNone then
    let rect ← ioRect ds wv
    match gdalValidate (ds.height : Int) (ds.width : Int) rect.1 rect.2.1
        rect.2.2.1 rect.2.2.2 1 rows cols with
    | some rv => .error (retvalMsg rv)
    | none =>
      .ok ((sampleBuf ds.maskBytes [bidx] rect.1 rect.2.1 rect.2.2.1
        rect.2.2.2 rows cols).getD 0 [])
  else
    match win? with
    | none => .error "unreachable"
    | some w =>
      let ov := overlapWin w (ds.height : Int) (ds.width : Int)
      if ov = ((0, 0), (0, 0)) then
        .ok (List.replicate rows (List.replicate cols 0))
      else
        if rows = 0 ∨ cols = 0 then .error "float division by zero"
        else
          let ovH := ov.1.2 - ov.1.1
          let ovW := ov.2.2 - ov.2.1
          let bufH := (pyTruncMulDiv ovH (rows : Int) (rows : Int)).toNat
          let bufW := (pyTruncMulDiv ovW (cols : Int) (cols : Int)).toNat
          let rect ← ioRect ds (some ov)
          match gdalValidate (ds.height : Int) (ds.width : Int) rect.1 rect.2.1
              rect.2.2.1 rect.2.2.2 1 bufH bufW with
          | some rv => .error (retvalMsg rv)
          | none =>
            let data := (sampleBuf ds.maskBytes [bidx] rect.1 rect.2.1
              rect.2.2.1 rect.2.2.2 bufH bufW).getD 0 []
            let roff : Int :=
              if w.1.1 < 0 then
                pyTruncMulDiv (rows : Int) (rows : Int) (rows : Int) - (bufH : Int)
              else 0
            let coff : Int :=
              if w.2.1 < 0 then
                pyTruncMulDiv (cols : Int) (cols : Int) (cols : Int) - (bufW : Int)
              else 0
            .ok (((overlay3 [(List.replicate rows (List.replicate cols (0 : Nat)))]
              [data] roff coff).getD 0 []))

/-- Elementwise `numpy` bitwise-OR of two validity-byte planes. -/
def orPlane (a b : List (List Nat)) : List (List Nat) :=
  a.zipWith (fun ra rb => ra.zipWith (fun x y => x ||| y) rb) b

/-- Model of `DatasetReaderBase.dataset_mask` (`_io.pyx` lines 1150-1195): if band
1's mask flags contain the per-dataset bit, band 1's mask is returned; if
the dataset has exactly 4 bands and band 1's color role is red, band 4's
mask is returned; otherwise the mask of band 1 is bitwise-ORed with the
masks of bands `1 … count-1` — the Python loop `for i in range(1,
self.count)` calls `read_masks(i)`, so the final band `count` never
contributes. -/
def dataset_mask (ds : Dataset) (win? : Option Window) (boundless : Bool) :
    Except String (List (List Nat)) :=
  if (ds.maskFlags.getD 0 0) &&& GMF_PER_DATASET ≠ 0 then
    read_masks1 ds 1 win? boundless
  else if ds.count = 4 ∧ ds.colorinterp1Red then
    read_masks1 ds 4 win? boundless
  else do
    let m0 ← read_masks1 ds 1 win? boundless
    (List.range' 1 (ds.count - 1)).foldlM (fun m i => do
      let mi ← read_masks1 ds i win? boundless
      pure (orPlane m mi)) m0

/-- The bitwise-OR of `read_masks(i)` over EVERY band `i` of the valid
index set — the quantity the spec asserts `dataset_mask` computes in its
fallback case (this definition follows the spec's words, for comparison
with `dataset_mask`). -/
def orAllBandMasks (ds : Dataset) (win? : Option Window) (boundless : Bool) :
    Except String (List (List Nat)) :=
  match dsIndexes ds with
  | [] => .error "no bands"
  | b :: rest => do
    let m0 ← read_masks1 ds b win? boundless
    rest.foldlM (fun m i => do
      let mi ← read_masks1 ds i win? boundless
      pure (orPlane m mi)) m0

/-- Concrete 1×1 dataset with two bands, no per-dataset mask flag: band 1
has validity byte `0`, band 2 has `255` (the failing input for the
`dataset_mask` fallback). -/
def dsTwoBands : Dataset :=
  ⟨1, 1, 2, [DType.uint8, DType.uint8], [none, none], [0, 0], false, false,
    fun _ _ _ => 0, fun b _ _ => if b = 1 then 0 else 255⟩

/-- Concrete 4×4 single-band `uint8` dataset with nodata `7` and all-valid
mask flags. -/
def dsFour : Dataset :=
  ⟨4, 4, 1, [DType.uint8], [some 7], [1], false, false,
    fun _ _ _ => 0, fun _ _ _ => 255⟩

/-- Concrete 2×2 single-band `uint8` dataset whose configured nodata value
is the parameter `v`. -/
def dsNodata (v : Int) : Dataset :=
  ⟨2, 2, 1, [DType.uint8], [some v], [1], false, false,
    fun _ _ _ => 0, fun _ _ _ => 255⟩

/-- Concrete 1×1 dataset with two bands where band 1 carries the
`GMF_ALL_VALID` flag but band 2 does not. -/
def dsFlagSplit : Dataset :=
  ⟨1, 1, 2, [DType.uint8, DType.uint8], [none, none], [1, 0], false, false,
    fun _ _ _ => 0, fun b _ _ => if b = 1 then 255 else 0⟩

/-- Concrete 1×1 single-band dataset for the write counterexamples. -/
def dsOne : Dataset :=
  ⟨1, 1, 1, [DType.uint8], [none], [1], false, false,
    fun _ _ _ => 0, fun _ _ _ => 255⟩

/-- Concrete 1×1 three-band dataset for the band-map order statements. -/
def dsThreeBands : Dataset :=
  ⟨1, 1, 3, [DType.uint8, DType.uint8, DType.uint8], [none, none, none],
    [1, 1, 1], false, false, fun _ _ _ => 0, fun _ _ _ => 255⟩

/-- Concrete 1×1 two-band dataset whose bands share the nodata value `3`
and carry the `GMF_NODATA` mask flag. -/
def dsSharedNodata : Dataset :=
  ⟨1, 1, 2, [DType.uint8, DType.uint8], [some 3, some 3], [8, 8], false, false,
    fun _ _ _ => 0, fun _ _ _ => 255⟩

/-- A one-array store holding a 6×4 single-plane contiguous `uint8`
source (six rows — matches a window taller than `dsFour`). -/
def storeTall : Store :=
  [⟨DType.uint8, 3, [List.replicate 6 (List.replicate 4 (5 : Int))], true⟩]

/-- A one-array store holding a zero-plane 3D source (shape `(0, _, _)`). -/
def storeEmptyPlanes : Store :=
  [⟨DType.uint8, 3, [], true⟩]

/-- A one-array store holding a contiguous two-plane 1×1 source with
values `5` and `9`. -/
def storeTwoPlanes : Store :=
  [⟨DType.uint8, 3, [[[5]], [[9]]], true⟩]

/-- A caller-supplied `uint8` output buffer shaped `(1, 2, 2)` (rows and
columns deliberately smaller than the natural 4×4 shape of `dsFour`). -/
def outSmall : OutArr := ⟨DType.uint8, zeros3 1 2 2⟩

/-- A caller-supplied `uint8` output buffer with two band planes. -/
def outTwoPlanes : OutArr := ⟨DType.uint8, zeros3 2 4 4⟩

theorem okBind {ε α β : Type} (a : α) (f : α → Except ε β) :
    (Except.ok a >>= f : Except ε β) = f a := rfl

theorem errBind {ε α β : Type} (e : ε) (f : α → Except ε β) :
    (Except.error e >>= f : Except ε β) = Except.error e := rfl

theorem dedup_const {α : Type} [DecidableEq α] (d : α) :
    ∀ (l : List α), (∀ x ∈ l, x = d) → l ≠ [] → l.dedup = [d] := by
  intro l
  induction l with
  | nil => intro _ h; exact absurd rfl h
  | cons x xs ih =>
    intro hall _
    have hx : x = d := hall x (List.mem_cons_self x xs)
    subst hx
    cases xs with
    | nil => simp
    | cons y ys =>
      have hy : y = x := hall y (by simp)
      have hmem : x ∈ y :: ys := by rw [hy]; exact List.mem_cons_self x ys
      rw [List.dedup_cons_of_mem hmem]
      exact ih (fun z hz => hall z (List.mem_cons_of_mem x hz)) (by simp)

theorem resolveBands_const (ds : Dataset) (d : DType) :
    ∀ (idxs : List Nat), (∀ b ∈ idxs, b ∈ dsIndexes ds) →
    (∀ b ∈ idxs, ds.dtypes.getD (b - 1) DType.uint8 = d) →
    resolveBands ds idxs =
      .ok (idxs.map fun b => (d, (ds.nodatavals.getD (b - 1) none).map (clampNodata d))) := by
  intro idxs
  induction idxs with
  | nil => intro _ _; rfl
  | cons b bs ih =>
    intro hmem hdt
    have hb : b ∈ dsIndexes ds := hmem b (List.mem_cons_self b bs)
    have hd : ds.dtypes.getD (b - 1) DType.uint8 = d := hdt b (List.mem_cons_self b bs)
    have ihr := ih (fun z hz => hmem z (List.mem_cons_of_mem b hz))
      (fun z hz => hdt z (List.mem_cons_of_mem b hz))
    show (resolveBand ds b >>= fun p => resolveBands ds bs >>= fun ps => .ok (p :: ps)) = _
    rw [resolveBand, if_pos hb, hd, okBind, ihr, okBind, List.map_cons]

theorem uniqueDtype_const (ds : Dataset) (d : DType) (l : List DType)
    (hall : ∀ x ∈ l, x = d) (hne : l ≠ []) : uniqueDtype ds l = .ok d := by
  rw [uniqueDtype, dedup_const d l hall hne]

/-- Claim C1 (code bug): on a two-band dataset with no per-dataset mask,
where band 1 is all-invalid and band 2 all-valid, `dataset_mask` returns
the all-invalid plane `[[0]]` because its fallback loop
`for i in range(1, self.count)` rereads band 1 and never reads the final
band, whereas the bitwise-OR of `read_masks(i)` over every band of the
valid index set — the quantity the spec and the method's own docstring
describe — is the all-valid plane `[[255]]`. -/
theorem dataset_mask_drops_last_band :
    dataset_mask dsTwoBands none false = .ok [[0]] ∧
    orAllBandMasks dsTwoBands none false = .ok [[255]] := by
  exact ⟨rfl, rfl⟩

theorem overlapWin_negquad (w : Window) (h wd : Int)
    (hr0 : w.1.1 ≤ w.1.2) (hr1 : w.1.2 ≤ 0) (hc0 : w.2.1 ≤ w.2.2)
    (hc1 : w.2.2 ≤ 0) : overlapWin w h wd = ((0, 0), (0, 0)) := by
  unfold overlapWin
  have h1 : min w.1.1 h ≤ 0 := le_trans (min_le_left _ _) (le_trans hr0 hr1)
  have h2 : min w.1.2 h ≤ 0 := le_trans (min_le_left _ _) hr1
  have h3 : min w.2.1 wd ≤ 0 := le_trans (min_le_left _ _) (le_trans hc0 hc1)
  have h4 : min w.2.2 wd ≤ 0 := le_trans (min_le_left _ _) hc1
  rw [max_eq_right h1, max_eq_right h2, max_eq_right h3, max_eq_right h4]

theorem readPre_boundless_alloc (ds : Dataset) (idxs : List Nat) (d : DType)
    (w : Window) (hne : idxs ≠ [])
    (hmem : ∀ b ∈ idxs, b ∈ dsIndexes ds)
    (hdt : ∀ b ∈ idxs, ds.dtypes.getD (b - 1) DType.uint8 = d)
    (hr : w.1.1 ≤ w.1.2) (hc : w.2.1 ≤ w.2.2) :
    readPre ds (some idxs) none (some w) none true =
      .ok ⟨idxs, d,
        idxs.map fun b => (ds.nodatavals.getD (b - 1) none).map (clampNodata d),
        (w.1.2 - w.1.1).toNat, (w.2.2 - w.2.1).toNat, some w,
        prefill (w.1.2 - w.1.1).toNat (w.2.2 - w.2.1).toNat
          (idxs.map fun b => (ds.nodatavals.getD (b - 1) none).map (clampNodata d)),
        allValidDS ds⟩ := by
  have hres := resolveBands_const ds d idxs hmem hdt
  have hfst : (idxs.map fun b =>
      (d, (ds.nodatavals.getD (b - 1) none).map (clampNodata d))).map Prod.fst =
      idxs.map fun _ => d := by
    rw [List.map_map]; rfl
  have hsnd : (idxs.map fun b =>
      (d, (ds.nodatavals.getD (b - 1) none).map (clampNodata d))).map Prod.snd =
      idxs.map fun b => (ds.nodatavals.getD (b - 1) none).map (clampNodata d) := by
    rw [List.map_map]; rfl
  have hud : uniqueDtype ds (idxs.map fun _ => d) = .ok d := by
    apply uniqueDtype_const
    · intro x hx
      rcases List.mem_map.mp hx with ⟨b, _, hb⟩
      exact hb.symm
    · simpa using hne
  have hws : resolveWinShape ds (some w) true =
      .ok ((w.1.2 - w.1.1).toNat, (w.2.2 - w.2.1).toNat, some w) := by
    have hcond : ¬(w.1.2 - w.1.1 < 0 ∨ w.2.2 - w.2.1 < 0) := by omega
    simp only [resolveWinShape, if_true]
    rw [if_neg hcond]
  have hie : idxs.isEmpty = false := by
    cases idxs with
    | nil => exact absurd rfl hne
    | cons a l => rfl
  rw [readPre]
  simp only [Option.getD, hie, Bool.false_eq_true, if_false, hres, hud, hws, hfst, hsnd]
  rw [if_neg (by simp)]
  rfl

theorem read_boundless_negquad (ds : Dataset) (idxs : List Nat) (d : DType)
    (w : Window) (hne : idxs ≠ [])
    (hmem : ∀ b ∈ idxs, b ∈ dsIndexes ds)
    (hdt : ∀ b ∈ idxs, ds.dtypes.getD (b - 1) DType.uint8 = d)
    (hr : w.1.1 ≤ w.1.2) (hr1 : w.1.2 ≤ 0)
    (hc : w.2.1 ≤ w.2.2) (hc1 : w.2.2 ≤ 0) :
    read ds (some idxs) none (some w) false none true =
      ⟨[], .ok ⟨idxs.map fun b =>
          List.replicate (w.1.2 - w.1.1).toNat
            (List.replicate (w.2.2 - w.2.1).toNat
              (((ds.nodatavals.getD (b - 1) none).map (clampNodata d)).getD 0)),
        none, none, none⟩⟩ := by
  rw [read, readPre_boundless_alloc ds idxs d w hne hmem hdt hr hc]
  show boundlessPath ds _ w false = _
  rw [boundlessPath]
  rw [overlapWin_negquad w _ _ hr hr1 hc hc1]
  simp only [if_pos rfl, if_false]
  show ReadRun.mk [] (.ok ⟨prefill _ _ _, none, none, none⟩) = _
  rw [prefill, List.map_map]
  rfl

theorem dtypeMin_le_dtypeMax (d : DType) : dtypeMin d ≤ dtypeMax d := by
  have h104 : (0 : Int) ≤ (2 ^ 24 - 1) * 2 ^ 104 := by positivity
  have h971 : (0 : Int) ≤ (2 ^ 53 - 1) * 2 ^ 971 := by positivity
  cases d <;> simp only [dtypeMin, dtypeMax] <;> omega

theorem clampNodata_eq_max_min (d : DType) (v : Int) :
    clampNodata d v = max (dtypeMin d) (min (dtypeMax d) v) := by
  have h := dtypeMin_le_dtypeMax d
  unfold clampNodata
  split_ifs <;> omega

/-- Claim C2 (amended): a boundless read whose requested window lies
entirely at non-positive row and column coordinates — exactly the
empty-intersection windows whose clamped overlap is the literal
`((0, 0), (0, 0))` the source compares against — returns, without any
native transfer, a buffer of the natural window shape whose band planes
are filled with the band's clamped nodata value, or zero when none is
configured.  (Empty-intersection windows beyond the positive edges of the
extent are the counterexample: they take the transfer branch.) -/
theorem read_boundless_negquad_returns_fill (ds : Dataset) (idxs : List Nat)
    (d : DType) (w : Window) (hne : idxs ≠ [])
    (hmem : ∀ b ∈ idxs, b ∈ dsIndexes ds)
    (hdt : ∀ b ∈ idxs, ds.dtypes.getD (b - 1) DType.uint8 = d)
    (hr : w.1.1 ≤ w.1.2) (hr1 : w.1.2 ≤ 0)
    (hc : w.2.1 ≤ w.2.2) (hc1 : w.2.2 ≤ 0) :
    read ds (some idxs) none (some w) false none true =
      ⟨[], .ok ⟨idxs.map fun b =>
          List.replicate (w.1.2 - w.1.1).toNat
            (List.replicate (w.2.2 - w.2.1).toNat
              (((ds.nodatavals.getD (b - 1) none).map (clampNodata d)).getD 0)),
        none, none, none⟩⟩ :=
  read_boundless_negquad ds idxs d w hne hmem hdt hr hr1 hc hc1

theorem read_boundless_negquad_returns_fill_witness :
    read dsFour (some [1]) none (some ((-3, -1), (-2, 0))) false none true =
      ⟨[], .ok ⟨[[[7, 7], [7, 7]]], none, none, none⟩⟩ :=
  (read_boundless_negquad_returns_fill dsFour [1] DType.uint8 ((-3, -1), (-2, 0))
    (by decide) (by decide) (by decide) (by decide) (by decide) (by decide)
    (by decide)).trans (by decide)

/-- Claim C2 (counterexample): the boundless window `((4, 8), (0, 4))` on
the 4×4 dataset `dsFour` has empty intersection with the extent, yet its
clamped overlap `((4, 4), (0, 4))` differs from `((0, 0), (0, 0))`, so
`read` takes the transfer branch: a native transfer with a degenerate
zero-row rectangle is attempted (the log is non-empty) and the call fails
with an I/O error instead of returning a nodata-filled buffer. -/
theorem read_boundless_empty_below_transfers :
    read dsFour (some [1]) none (some ((4, 8), (0, 4))) false none true =
      ⟨[⟨false, 0, 4, 4, 0, 1, 0, 4⟩], .error "Read or write failed"⟩ := by
  decide

/-- Claim C5: on a dataset whose requested bands share the encoding `d`,
the fill value used by `read` for each band plane is the configured
nodata value clamped to the nearest representable bound of `d` — written
here independently as `max (dtypeMin d) (min (dtypeMax d) v)` — or zero
when no nodata is configured (shown on the allocation path of a boundless
read with an out-of-extent window, where the returned buffer consists
solely of fill values). -/
theorem read_fill_is_clamped_nodata (ds : Dataset) (idxs : List Nat)
    (d : DType) (w : Window) (hne : idxs ≠ [])
    (hmem : ∀ b ∈ idxs, b ∈ dsIndexes ds)
    (hdt : ∀ b ∈ idxs, ds.dtypes.getD (b - 1) DType.uint8 = d)
    (hr : w.1.1 ≤ w.1.2) (hr1 : w.1.2 ≤ 0)
    (hc : w.2.1 ≤ w.2.2) (hc1 : w.2.2 ≤ 0) :
    read ds (some idxs) none (some w) false none true =
      ⟨[], .ok ⟨idxs.map fun b =>
          List.replicate (w.1.2 - w.1.1).toNat
            (List.replicate (w.2.2 - w.2.1).toNat
              (((ds.nodatavals.getD (b - 1) none).map
                (fun v => max (dtypeMin d) (min (dtypeMax d) v))).getD 0)),
        none, none, none⟩⟩ := by
  rw [read_boundless_negquad ds idxs d w hne hmem hdt hr hr1 hc hc1]
  have hfun : clampNodata d = fun v => max (dtypeMin d) (min (dtypeMax d) v) :=
    funext (clampNodata_eq_max_min d)
  rw [hfun]

theorem read_fill_is_clamped_nodata_witness :
    read (dsNodata 300) (some [1]) none (some ((-2, -1), (-2, -1))) false none true =
      ⟨[], .ok ⟨[[[255]]], none, none, none⟩⟩ :=
  (read_fill_is_clamped_nodata (dsNodata 300) [1] DType.uint8 ((-2, -1), (-2, -1))
    (by decide) (by decide) (by decide) (by decide) (by decide) (by decide)
    (by decide)).trans (by decide)

/-- Claim C4 (amended): a `read` whose index list is empty raises the
"No indexes to read" error before any native transfer (the log is empty),
for every dataset and every combination of the remaining arguments.  (The
write path is the counterexample: it has no such guard.) -/
theorem read_empty_indexes_rejected (ds : Dataset) (out? : Option OutArr)
    (win? : Option Window) (masked : Bool) (oshape? : Option (List Nat))
    (bl : Bool) :
    read ds (some []) out? win? masked oshape? bl =
      ⟨[], .error "No indexes to read"⟩ := rfl

/-- Claim C4 (counterexample): `write` with the empty index list and a
source with zero planes passes the shape consistency check and reaches
the native transfer — the log records a `GDALDatasetRasterIO` call with
an empty band map, which then fails — instead of raising before any
native transfer call. -/
theorem write_empty_indexes_reaches_native :
    (write dsOne storeEmptyPlanes 0 (some (.inl [])) none).log =
      [⟨false, 0, 0, 1, 1, 0, 0, 0⟩] ∧
    (write dsOne storeEmptyPlanes 0 (some (.inl [])) none).err =
      some "Read or write failed" :=
  ⟨rfl, rfl⟩

theorem resolveWinShape_some_false (ds : Dataset) (w : Window) {rcw}
    (h : resolveWinShape ds (some w) false = .ok rcw) :
    ∃ we, evaluateWin w (ds.height : Int) (ds.width : Int) = .ok we ∧
      rcw.2.2 = some (cropWin we (ds.height : Int) (ds.width : Int)) := by
  simp only [resolveWinShape, Bool.false_eq_true, if_false] at h
  cases hev : evaluateWin w (ds.height : Int) (ds.width : Int) with
  | error e => rw [hev, errBind] at h; exact absurd h (by simp)
  | ok we =>
    rw [hev, okBind] at h
    refine ⟨we, rfl, ?_⟩
    have := Except.ok.inj h
    rw [← this]

theorem readPre_ok_inv {ds : Dataset} {idx? : Option (List Nat)}
    {out? : Option OutArr} {win? : Option Window} {oshape? : Option (List Nat)}
    {bl : Bool} {pre : ReadPre}
    (h : readPre ds idx? out? win? oshape? bl = .ok pre) :
    pre.allValid = allValidDS ds ∧
    (∃ pairs, resolveBands ds (idx?.getD (dsIndexes ds)) = .ok pairs ∧
      pre.nvs = pairs.map Prod.snd) ∧
    (∃ rcw, resolveWinShape ds win? bl = .ok rcw ∧ pre.windowVar = rcw.2.2) := by
  simp only [readPre] at h
  by_cases hie : (idx?.getD (dsIndexes ds)).isEmpty
  · rw [if_pos hie] at h; exact absurd h (by simp)
  · rw [if_neg hie] at h
    cases hrb : resolveBands ds (idx?.getD (dsIndexes ds)) with
    | error e => simp only [hrb] at h; exact absurd h (by simp)
    | ok pairs =>
      simp only [hrb] at h
      cases hud : uniqueDtype ds (pairs.map Prod.fst) with
      | error e => simp only [hud] at h; exact absurd h (by simp)
      | ok dtype =>
        simp only [hud] at h
        cases hws : resolveWinShape ds win? bl with
        | error e => simp only [hws] at h; exact absurd h (by simp)
        | ok rcw =>
          simp only [hws] at h
          obtain ⟨rows, cols, wv⟩ := rcw
          by_cases hex : out?.isSome = true ∧ oshape?.isSome = true
          · rw [if_pos hex] at h; exact absurd h (by simp)
          · rw [if_neg hex] at h
            cases hoe : readOutEff dtype out? oshape? with
            | none =>
              simp only [hoe] at h
              have hp := Except.ok.inj h
              refine ⟨by rw [← hp], ⟨pairs, rfl, by rw [← hp]⟩,
                ⟨(rows, cols, wv), rfl, by rw [← hp]⟩⟩
            | some o =>
              simp only [hoe] at h
              by_cases hdty : o.dtype ≠ dtype
              · rw [if_pos hdty] at h; exact absurd h (by simp)
              · rw [if_neg hdty] at h
                by_cases hlen : o.data.length ≠ (idx?.getD (dsIndexes ds)).length
                · rw [if_pos hlen] at h; exact absurd h (by simp)
                · rw [if_neg hlen] at h
                  have hp := Except.ok.inj h
                  refine ⟨by rw [← hp], ⟨pairs, rfl, by rw [← hp]⟩,
                    ⟨(rows, cols, wv), rfl, by rw [← hp]⟩⟩

theorem readPre_out_band_mismatch (ds : Dataset) (idx? : Option (List Nat))
    (o : OutArr) (win? : Option Window) (oshape? : Option (List Nat)) (bl : Bool)
    (hm : o.data.length ≠ (idx?.getD (dsIndexes ds)).length) :
    ∃ e, readPre ds idx? (some o) win? oshape? bl = .error e := by
  simp only [readPre]
  by_cases hie : (idx?.getD (dsIndexes ds)).isEmpty
  · rw [if_pos hie]; exact ⟨_, rfl⟩
  · rw [if_neg hie]
    cases hrb : resolveBands ds (idx?.getD (dsIndexes ds)) with
    | error e => simp only [hrb]; exact ⟨e, rfl⟩
    | ok pairs =>
      simp only [hrb]
      cases hud : uniqueDtype ds (pairs.map Prod.fst) with
      | error e => simp only [hud]; exact ⟨e, rfl⟩
      | ok dtype =>
        simp only [hud]
        cases hws : resolveWinShape ds win? bl with
        | error e => simp only [hws]; exact ⟨e, rfl⟩
        | ok rcw =>
          simp only [hws]
          obtain ⟨rows, cols, wv⟩ := rcw
          cases oshape? with
          | some sh => rw [if_pos ⟨rfl, rfl⟩]; exact ⟨_, rfl⟩
          | none =>
            rw [if_neg (by simp)]
            simp only [readOutEff]
            by_cases hdty : o.dtype ≠ dtype
            · rw [if_pos hdty]; exact ⟨_, rfl⟩
            · rw [if_neg hdty, if_pos hm]; exact ⟨_, rfl⟩

/-- Claim C8 (amended): of a caller-supplied `out` buffer only the band
dimension (and the dtype) is validated against the natural shape: when
`out.shape[0]` differs from the number of requested bands the call is
rejected before any native transfer (empty log, error result), for every
dataset, window and mode.  Row and column mismatches are not rejected —
see the counterexample, where they produce a scaled native read. -/
theorem read_out_band_mismatch_rejected (ds : Dataset) (idx? : Option (List Nat))
    (o : OutArr) (win? : Option Window) (masked : Bool)
    (oshape? : Option (List Nat)) (bl : Bool)
    (hm : o.data.length ≠ (idx?.getD (dsIndexes ds)).length) :
    (read ds idx? (some o) win? masked oshape? bl).log = [] ∧
    ∃ e, (read ds idx? (some o) win? masked oshape? bl).res = .error e := by
  obtain ⟨e, he⟩ := readPre_out_band_mismatch ds idx? o win? oshape? bl hm
  rw [read, he]
  exact ⟨rfl, e, rfl⟩

theorem read_out_band_mismatch_rejected_witness :
    (read dsFour (some [1]) (some outTwoPlanes) none false none false).log = [] ∧
    ∃ e, (read dsFour (some [1]) (some outTwoPlanes) none false none false).res =
      .error e :=
  read_out_band_mismatch_rejected dsFour (some [1]) outTwoPlanes none false none
    false (by decide)

/-- Claim C8 (counterexample): a caller-supplied `out` buffer shaped
`(1, 2, 2)` does not match the natural `(1, 4, 4)` shape of the resolved
(full-extent) window of `dsFour` in its row and column dimensions, yet
the request is not rejected: a native transfer is performed (with the
mismatched buffer pitch `2 × 2`, i.e. a decimated read) and the call
succeeds. -/
theorem read_out_row_col_mismatch_accepted :
    read dsFour (some [1]) (some outSmall) none false none false =
      ⟨[⟨false, 0, 0, 4, 4, 1, 2, 2⟩], .ok ⟨[[[0, 0], [0, 0]]], none, none, none⟩⟩ := by
  decide

theorem evaluateWin_ok_ordered {w : Window} {h wd : Int} {we : Window}
    (hok : evaluateWin w h wd = .ok we) :
    we.1.1 ≤ we.1.2 ∧ we.2.1 ≤ we.2.2 := by
  simp only [evaluateWin] at hok
  by_cases h1 : evalBound w.1.2 h < evalBound w.1.1 h
  · rw [if_pos h1] at hok; exact absurd hok (by simp)
  · rw [if_neg h1] at hok
    by_cases h2 : evalBound w.2.2 wd < evalBound w.2.1 wd
    · rw [if_pos h2] at hok; exact absurd hok (by simp)
    · rw [if_neg h2] at hok
      have hp := Except.ok.inj hok
      rw [← hp]
      exact ⟨not_lt.mp h1, not_lt.mp h2⟩

theorem evaluateWin_id_of_nonneg (w : Window) (h wd : Int) (h0 : 0 ≤ w.1.1)
    (h1 : w.1.1 ≤ w.1.2) (h2 : 0 ≤ w.2.1) (h3 : w.2.1 ≤ w.2.2) :
    evaluateWin w h wd = .ok w := by
  have e1 : evalBound w.1.1 h = w.1.1 := if_neg (by omega)
  have e2 : evalBound w.1.2 h = w.1.2 := if_neg (by omega)
  have e3 : evalBound w.2.1 wd = w.2.1 := if_neg (by omega)
  have e4 : evalBound w.2.2 wd = w.2.2 := if_neg (by omega)
  simp only [evaluateWin, e1, e2, e3, e4]
  rw [if_neg (by omega), if_neg (by omega)]

theorem cropWin_bounds (we : Window) (h wd : Int) (hh : 0 ≤ h) (hw : 0 ≤ wd) :
    0 ≤ (cropWin we h wd).1.1 ∧ (cropWin we h wd).1.2 ≤ h ∧
    0 ≤ (cropWin we h wd).2.1 ∧ (cropWin we h wd).2.2 ≤ wd ∧
    (we.1.1 ≤ we.1.2 → (cropWin we h wd).1.1 ≤ (cropWin we h wd).1.2) ∧
    (we.2.1 ≤ we.2.2 → (cropWin we h wd).2.1 ≤ (cropWin we h wd).2.2) := by
  unfold cropWin
  refine ⟨?_, ?_, ?_, ?_, ?_, ?_⟩ <;> simp <;> omega

theorem directPath_log (ds : Dataset) (pre : ReadPre) (masked : Bool) :
    ∀ c ∈ (directPath ds pre masked).log,
      ∃ x y rw rh, ioRect ds pre.windowVar = .ok (x, y, rw, rh) ∧
        c.xoff = x ∧ c.yoff = y ∧ c.width = rw ∧ c.height = rh := by
  intro c hc
  unfold directPath at hc
  cases hio : ioRect ds pre.windowVar with
  | error e => simp only [hio] at hc; exact absurd hc (by simp)
  | ok t =>
    obtain ⟨x, y, rw, rh⟩ := t
    simp only [hio] at hc
    refine ⟨x, y, rw, rh, rfl, ?_⟩
    cases hv : gdalValidate (ds.height : Int) (ds.width : Int) x y rw rh
        pre.indexes.length (buf3H pre.out) (buf3W pre.out) with
    | some rv =>
      simp only [hv] at hc
      rcases List.mem_singleton.mp hc with rfl
      exact ⟨rfl, rfl, rfl, rfl⟩
    | none =>
      simp only [hv] at hc
      cases masked with
      | false =>
        rcases List.mem_singleton.mp hc with rfl
        exact ⟨rfl, rfl, rfl, rfl⟩
      | true =>
        cases hav : pre.allValid with
        | true =>
          simp only [hav] at hc
          rcases List.mem_singleton.mp hc with rfl
          exact ⟨rfl, rfl, rfl, rfl⟩
        | false =>
          simp only [hav] at hc
          rcases List.mem_cons.mp hc with rfl | hc2
          · exact ⟨rfl, rfl, rfl, rfl⟩
          · rcases List.mem_singleton.mp hc2 with rfl
            exact ⟨rfl, rfl, rfl, rfl⟩

/-- Claim C3 (amended, read path): every native transfer performed by a
non-boundless `read` carrying a window uses a pixel rectangle clipped to
the dataset extent: non-negative offsets, with `xoff + width ≤ width` and
`yoff + height ≤ height` of the dataset.  (The write path is the
counterexample: it evaluates but does not crop its window.) -/
theorem read_window_rect_clipped (ds : Dataset) (idx? : Option (List Nat))
    (out? : Option OutArr) (w : Window) (masked : Bool)
    (oshape? : Option (List Nat)) :
    ∀ c ∈ (read ds idx? out? (some w) masked oshape? false).log,
      0 ≤ c.xoff ∧ 0 ≤ c.yoff ∧ c.xoff + c.width ≤ (ds.width : Int) ∧
        c.yoff + c.height ≤ (ds.height : Int) := by
  intro c hc
  rw [read] at hc
  cases hp : readPre ds idx? out? (some w) oshape? false with
  | error e => simp only [hp] at hc; exact absurd hc (by simp)
  | ok pre =>
    simp only [hp] at hc
    obtain ⟨rcw, hws, hwveq⟩ := (readPre_ok_inv hp).2.2
    obtain ⟨we, hev, hcrop⟩ := resolveWinShape_some_false ds w hws
    obtain ⟨x, y, rw, rh, hio, hx, hy, hw, hh⟩ := directPath_log ds pre masked c hc
    rw [hwveq, hcrop] at hio
    have hord := evaluateWin_ok_ordered hev
    have hcb := cropWin_bounds we (ds.height : Int) (ds.width : Int)
      (Int.natCast_nonneg _) (Int.natCast_nonneg _)
    obtain ⟨hb1, hb2, hb3, hb4, hb5, hb6⟩ := hcb
    have hevid := evaluateWin_id_of_nonneg
      (cropWin we (ds.height : Int) (ds.width : Int)) (ds.height : Int)
      (ds.width : Int) hb1 (hb5 hord.1) hb3 (hb6 hord.2)
    rw [ioRect] at hio
    rw [hevid, okBind] at hio
    have hp2 := Except.ok.inj hio
    obtain ⟨hpx, hpy, hpw, hph⟩ : (cropWin we (ds.height : Int) (ds.width : Int)).2.1 = x ∧
        (cropWin we (ds.height : Int) (ds.width : Int)).1.1 = y ∧
        (cropWin we (ds.height : Int) (ds.width : Int)).2.2 -
          (cropWin we (ds.height : Int) (ds.width : Int)).2.1 = rw ∧
        (cropWin we (ds.height : Int) (ds.width : Int)).1.2 -
          (cropWin we (ds.height : Int) (ds.width : Int)).1.1 = rh := by
      refine ⟨congrArg (·.1) hp2, ?_, ?_, ?_⟩
      · exact congrArg (·.2.1) hp2
      · exact congrArg (·.2.2.1) hp2
      · exact congrArg (·.2.2.2) hp2
    rw [hx, hy, hw, hh]
    constructor
    · omega
    constructor
    · omega
    constructor
    · omega
    · omega

/-- Claim C3 (counterexample, write path): a write on the 4×4 dataset
`dsFour` with window `((0, 6), (0, 4))` hands the native transfer the
unclipped rectangle `yoff = 0, height = 6`, which extends beyond the
dataset extent (`yoff + height = 6 > 4`): the write path evaluates the
window but never crops it. -/
theorem write_window_not_clipped :
    ((write dsFour storeTall 0 (some (.inl [1])) (some ((0, 6), (0, 4)))).log.all
      fun c => decide (c.yoff + c.height ≤ (dsFour.height : Int))) = false ∧
    (write dsFour storeTall 0 (some (.inl [1])) (some ((0, 6), (0, 4)))).log ≠ [] := by
  exact ⟨rfl, by decide⟩

theorem read_window_rect_clipped_witness :
    0 ≤ (⟨false, 0, 0, 1, 1, 1, 1, 1⟩ : NativeCall).xoff ∧
    0 ≤ (⟨false, 0, 0, 1, 1, 1, 1, 1⟩ : NativeCall).yoff ∧
    (⟨false, 0, 0, 1, 1, 1, 1, 1⟩ : NativeCall).xoff +
      (⟨false, 0, 0, 1, 1, 1, 1, 1⟩ : NativeCall).width ≤ (dsFour.width : Int) ∧
    (⟨false, 0, 0, 1, 1, 1, 1, 1⟩ : NativeCall).yoff +
      (⟨false, 0, 0, 1, 1, 1, 1, 1⟩ : NativeCall).height ≤ (dsFour.height : Int) :=
  read_window_rect_clipped dsFour (some [1]) none ((0, 1), (0, 1)) false none
    ⟨false, 0, 0, 1, 1, 1, 1, 1⟩ (by decide)

theorem read_direct_eq {ds : Dataset} {idx? : Option (List Nat)}
    {out? : Option OutArr} {win? : Option Window} {oshape? : Option (List Nat)}
    {bl : Bool} {pre : ReadPre} (masked : Bool)
    (hp : readPre ds idx? out? win? oshape? bl = .ok pre)
    (hb : bl = false ∨ win? = none) :
    read ds idx? out? win? masked oshape? bl = directPath ds pre masked := by
  rw [read, hp]
  rcases hb with rfl | rfl
  · cases win? <;> rfl
  · rfl

theorem read_boundless_eq {ds : Dataset} {idx? : Option (List Nat)}
    {out? : Option OutArr} {w : Window} {oshape? : Option (List Nat)}
    {pre : ReadPre} (masked : Bool)
    (hp : readPre ds idx? out? (some w) oshape? true = .ok pre) :
    read ds idx? out? (some w) masked oshape? true =
      boundlessPath ds pre w masked := by
  rw [read, hp]

/-- Claim C6 (amended): in a masked direct read (non-boundless, or
windowless), the all-valid shortcut is keyed on the mask flags of every
band of the DATASET — not of the requested bands: when all dataset bands
carry `GMF_ALL_VALID` the result has no mask overlay and no mask-band
transfer appears in the log; otherwise exactly one mask-band transfer is
performed and the result's mask is exactly the elementwise inverse of the
fetched validity bytes. -/
theorem masked_read_direct_semantics (ds : Dataset) (idx? : Option (List Nat))
    (out? : Option OutArr) (win? : Option Window) (oshape? : Option (List Nat))
    (bl : Bool) (o : ReadOut)
    (hb : bl = false ∨ win? = none)
    (h : (read ds idx? out? win? true oshape? bl).res = .ok o) :
    (allValidDS ds = true → o.mask = none ∧
      ∀ c ∈ (read ds idx? out? win? true oshape? bl).log, c.masks = false) ∧
    (allValidDS ds = false → ∃ bytes, o.fetchedMaskBytes = some bytes ∧
      o.mask = some (invertBytes bytes) ∧
      ((read ds idx? out? win? true oshape? bl).log.filter
        (fun c => c.masks)).length = 1) := by
  cases hp : readPre ds idx? out? win? oshape? bl with
  | error e => rw [read, hp] at h; simp at h
  | ok pre =>
    have hav : pre.allValid = allValidDS ds := (readPre_ok_inv hp).1
    have hread := read_direct_eq true hp hb
    rw [hread] at h ⊢
    unfold directPath at h ⊢
    cases hio : ioRect ds pre.windowVar with
    | error e => simp only [hio] at h; simp at h
    | ok t =>
      obtain ⟨x, y, rw_, rh⟩ := t
      simp only [hio] at h ⊢
      cases hv : gdalValidate (ds.height : Int) (ds.width : Int) x y rw_ rh
          pre.indexes.length (buf3H pre.out) (buf3W pre.out) with
      | some rv => simp only [hv] at h; simp at h
      | none =>
        simp only [hv] at h ⊢
        cases hav2 : pre.allValid with
        | true =>
          simp only [hav2] at h ⊢
          have ho := Except.ok.inj h
          constructor
          · intro _
            refine ⟨by rw [← ho], ?_⟩
            intro c hc
            rcases List.mem_singleton.mp hc with rfl
            rfl
          · intro hfalse
            rw [hav] at hav2
            rw [hav2] at hfalse
            exact absurd hfalse (by simp)
        | false =>
          simp only [hav2] at h ⊢
          have ho := Except.ok.inj h
          constructor
          · intro htrue
            rw [hav] at hav2
            rw [hav2] at htrue
            exact absurd htrue (by simp)
          · intro _
            refine ⟨sampleBuf ds.maskBytes pre.indexes x y rw_ rh
              (buf3H pre.out) (buf3W pre.out), by rw [← ho], by rw [← ho], rfl⟩

/-- Claim C6 (counterexample): on `dsFlagSplit` the single requested band
(band 1) carries the all-valid flag, yet `read(indexes=[1], masked=True)`
performs a second, mask-band native transfer and attaches a mask overlay,
because the shortcut inspects the flags of every band of the dataset and
band 2 lacks the flag. -/
theorem masked_read_ignores_requested_scope :
    read dsFlagSplit (some [1]) none none true none false =
      ⟨[⟨false, 0, 0, 1, 1, 1, 1, 1⟩, ⟨true, 0, 0, 1, 1, 1, 1, 1⟩],
        .ok ⟨[[[0]]], some [[[false]]], none, some [[[255]]]⟩⟩ := by
  decide

theorem masked_read_direct_semantics_witness :
    (allValidDS dsFlagSplit = true →
      (⟨[[[0]]], some [[[false]]], none, some [[[255]]]⟩ : ReadOut).mask = none ∧
      ∀ c ∈ (read dsFlagSplit (some [1]) none none true none false).log,
        c.masks = false) ∧
    (allValidDS dsFlagSplit = false → ∃ bytes,
      (⟨[[[0]]], some [[[false]]], none, some [[[255]]]⟩ : ReadOut).fetchedMaskBytes =
        some bytes ∧
      (⟨[[[0]]], some [[[false]]], none, some [[[255]]]⟩ : ReadOut).mask =
        some (invertBytes bytes) ∧
      ((read dsFlagSplit (some [1]) none none true none false).log.filter
        (fun c => c.masks)).length = 1) :=
  masked_read_direct_semantics dsFlagSplit (some [1]) none none none false
    ⟨[[[0]]], some [[[false]]], none, some [[[255]]]⟩ (Or.inl rfl) (by decide)

theorem fillValueOf_isSome_iff (nvs : List (Option Int)) :
    (fillValueOf nvs).isSome = true ↔
      ∃ v : Int, nvs ≠ [] ∧ ∀ x ∈ nvs, x = some v := by
  cases nvs with
  | nil => simp [fillValueOf]
  | cons v rest =>
    simp only [fillValueOf]
    by_cases hall : rest.all (· == v)
    · rw [if_pos hall]
      have hrest : ∀ x ∈ rest, x = v := by
        intro x hx
        exact beq_iff_eq.mp (List.all_eq_true.mp hall x hx)
      cases v with
      | none =>
        simp only [Option.isSome_none]
        constructor
        · intro hf; exact absurd hf (by simp)
        · rintro ⟨u, -, hu⟩
          exact absurd (hu none (List.mem_cons_self _ _)) (by simp)
      | some u =>
        simp only [Option.isSome_some, true_iff]
        refine ⟨u, by simp, ?_⟩
        intro x hx
        rcases List.mem_cons.mp hx with rfl | hx2
        · rfl
        · exact hrest x hx2
    · rw [if_neg hall]
      simp only [Option.isSome_none, Bool.false_eq_true, false_iff]
      rintro ⟨u, -, hu⟩
      apply hall
      apply List.all_eq_true.mpr
      intro x hx
      apply beq_iff_eq.mpr
      rw [hu x (List.mem_cons_of_mem _ hx), hu v (List.mem_cons_self _ _)]

theorem read_masked_ok_fill {ds : Dataset} {idx? : Option (List Nat)}
    {out? : Option OutArr} {win? : Option Window} {oshape? : Option (List Nat)}
    {bl : Bool} {o : ReadOut} {pre : ReadPre}
    (hp : readPre ds idx? out? win? oshape? bl = .ok pre)
    (h : (read ds idx? out? win? true oshape? bl).res = .ok o)
    (hm : o.mask.isSome = true) :
    o.fill = fillValueOf pre.nvs := by
  cases win? with
  | none =>
    rw [read_direct_eq true hp (Or.inr rfl)] at h
    unfold directPath at h
    cases hio : ioRect ds pre.windowVar with
    | error e => simp only [hio] at h; simp at h
    | ok t =>
      obtain ⟨x, y, rw_, rh⟩ := t
      simp only [hio] at h
      cases hv : gdalValidate (ds.height : Int) (ds.width : Int) x y rw_ rh
          pre.indexes.length (buf3H pre.out) (buf3W pre.out) with
      | some rv => simp only [hv] at h; simp at h
      | none =>
        simp only [hv] at h
        cases hav : pre.allValid with
        | true =>
          simp only [hav] at h
          have ho := Except.ok.inj h
          rw [← ho] at hm
          exact absurd hm (by simp)
        | false =>
          simp only [hav] at h
          have ho := Except.ok.inj h
          rw [← ho]
  | some w =>
    cases bl with
    | false =>
      rw [read_direct_eq true hp (Or.inl rfl)] at h
      unfold directPath at h
      cases hio : ioRect ds pre.windowVar with
      | error e => simp only [hio] at h; simp at h
      | ok t =>
        obtain ⟨x, y, rw_, rh⟩ := t
        simp only [hio] at h
        cases hv : gdalValidate (ds.height : Int) (ds.width : Int) x y rw_ rh
            pre.indexes.length (buf3H pre.out) (buf3W pre.out) with
        | some rv => simp only [hv] at h; simp at h
        | none =>
          simp only [hv] at h
          cases hav : pre.allValid with
          | true =>
            simp only [hav] at h
            have ho := Except.ok.inj h
            rw [← ho] at hm
            exact absurd hm (by simp)
          | false =>
            simp only [hav] at h
            have ho := Except.ok.inj h
            rw [← ho]
    | true =>
      rw [read_boundless_eq true hp] at h
      unfold boundlessPath at h
      by_cases hov : overlapWin w (ds.height : Int) (ds.width : Int) = ((0, 0), (0, 0))
      · rw [if_pos hov] at h
        have ho := Except.ok.inj h
        rw [← ho]
      · rw [if_neg hov] at h
        by_cases hz : pre.rows = 0 ∨ pre.cols = 0
        · rw [if_pos hz] at h; simp at h
        · rw [if_neg hz] at h
          cases hio : ioRect ds
              (some (overlapWin w (ds.height : Int) (ds.width : Int))) with
          | error e => simp only [hio] at h; simp at h
          | ok t =>
            obtain ⟨x, y, rw_, rh⟩ := t
            simp only [hio] at h
            cases hv : gdalValidate (ds.height : Int) (ds.width : Int) x y rw_ rh
                pre.indexes.length
                (pyRoundMulDiv ((overlapWin w (ds.height : Int) (ds.width : Int)).1.2 -
                  (overlapWin w (ds.height : Int) (ds.width : Int)).1.1)
                  ((buf3H pre.out : Int)) ((pre.rows : Int))).toNat
                (pyRoundMulDiv ((overlapWin w (ds.height : Int) (ds.width : Int)).2.2 -
                  (overlapWin w (ds.height : Int) (ds.width : Int)).2.1)
                  ((buf3W pre.out : Int)) ((pre.cols : Int))).toNat with
            | some rv => simp only [hv] at h; simp at h
            | none =>
              simp only [hv] at h
              have ho := Except.ok.inj h
              rw [← ho]

/-- Claim C9: whenever a masked `read` succeeds and attaches a mask, a
fill value is present in the result exactly when the requested bands'
(clamped) nodata values are a nonempty list of one shared non-absent
value; differing or absent nodata values leave the fill unset even though
the mask is present. -/
theorem masked_read_fill_iff_shared_nodata (ds : Dataset)
    (idx? : Option (List Nat)) (out? : Option OutArr) (win? : Option Window)
    (oshape? : Option (List Nat)) (bl : Bool) (o : ReadOut)
    (pairs : List (DType × Option Int))
    (h : (read ds idx? out? win? true oshape? bl).res = .ok o)
    (hrb : resolveBands ds (idx?.getD (dsIndexes ds)) = .ok pairs)
    (hm : o.mask.isSome = true) :
    (o.fill.isSome = true ↔ ∃ v : Int, pairs ≠ [] ∧ ∀ p ∈ pairs, p.2 = some v) := by
  cases hp : readPre ds idx? out? win? oshape? bl with
  | error e => rw [read, hp] at h; simp at h
  | ok pre =>
    obtain ⟨pairs2, hrb2, hnv⟩ := (readPre_ok_inv hp).2.1
    rw [hrb] at hrb2
    have hpairs : pairs2 = pairs := (Except.ok.inj hrb2).symm
    subst hpairs
    have hfill := read_masked_ok_fill hp h hm
    rw [hfill, hnv, fillValueOf_isSome_iff]
    constructor
    · rintro ⟨v, hne, hall⟩
      refine ⟨v, by simpa using hne, ?_⟩
      intro p hp2
      exact hall p.2 (List.mem_map.mpr ⟨p, hp2, rfl⟩)
    · rintro ⟨v, hne, hall⟩
      refine ⟨v, by simpa using hne, ?_⟩
      intro x hx
      rcases List.mem_map.mp hx with ⟨p, hp2, rfl⟩
      exact hall p hp2

theorem masked_read_fill_iff_shared_nodata_witness :
    ((⟨[[[0]], [[0]]], some [[[false]], [[false]]], some 3,
        some [[[255]], [[255]]]⟩ : ReadOut).fill.isSome = true ↔
      ∃ v : Int, ([(DType.uint8, some (3 : Int)), (DType.uint8, some 3)] ≠
        ([] : List (DType × Option Int))) ∧
        ∀ p ∈ [(DType.uint8, some (3 : Int)), (DType.uint8, some 3)],
          p.2 = some v) :=
  masked_read_fill_iff_shared_nodata dsSharedNodata (some [1, 2]) none none none
    false ⟨[[[0]], [[0]]], some [[[false]], [[false]]], some 3,
      some [[[255]], [[255]]]⟩ [(DType.uint8, some 3), (DType.uint8, some 3)]
    (by decide) (by decide) (by decide)

theorem writePlane_other (rast : Nat → Nat → Nat → Int) (b : Nat) (plane : Plane)
    (xoff yoff rw rh : Int) (b' r c : Nat) (hb : b' ≠ b) :
    writePlane rast b plane xoff yoff rw rh b' r c = rast b' r c := by
  unfold writePlane
  rw [if_neg (by intro hcon; exact hb hcon.1)]

theorem writePlane_self (rast : Nat → Nat → Nat → Int) (b : Nat) (plane : Plane)
    (h wd : Nat) (r c : Nat) (hr : r < h) (hc : c < wd)
    (hph : plane.length = h) (hpw : (plane.headD []).length = wd) :
    writePlane rast b plane 0 0 (wd : Int) (h : Int) b r c = get2 plane r c := by
  unfold writePlane
  rw [if_pos ⟨rfl, by omega, by omega, by omega, by omega⟩]
  have hh : (h : Int) ≠ 0 := by omega
  have hw : (wd : Int) ≠ 0 := by omega
  rw [hph, hpw]
  have e1 : (((r : Int) - 0) * (h : Int) / (h : Int)).toNat = r := by
    rw [sub_zero, Int.mul_ediv_cancel _ hh]
    simp
  have e2 : (((c : Int) - 0) * (wd : Int) / (wd : Int)).toNat = c := by
    rw [sub_zero, Int.mul_ediv_cancel _ hw]
    simp
  rw [e1, e2]
  rfl

/-- Claim C7: a `write` with the explicit index list `[3, 1]` and a
two-plane source stores buffer plane 0 into band 3 and buffer plane 1
into band 1, leaving every other band untouched — the band map preserves
the caller's order and is not sorted. -/
theorem write_band_map_order (ds : Dataset) (store : Store) (srcId : Nat)
    (p0 p1 : Plane) (d : DType)
    (hcount : 3 ≤ ds.count) (hh : 0 < ds.height) (hw : 0 < ds.width)
    (hsrc : store.getD srcId arrDefault = ⟨d, 3, [p0, p1], true⟩)
    (hd0 : ds.dtypes.getD 0 DType.uint8 = d)
    (hd2 : ds.dtypes.getD 2 DType.uint8 = d)
    (hp0h : p0.length = ds.height) (hp0w : (p0.headD []).length = ds.width)
    (hp1h : p1.length = ds.height) (hp1w : (p1.headD []).length = ds.width) :
    (write ds store srcId (some (.inl [3, 1])) none).err = none ∧
    ∀ r c, r < ds.height → c < ds.width →
      ((write ds store srcId (some (.inl [3, 1])) none).ds.raster 3 r c =
        get2 p0 r c ∧
       (write ds store srcId (some (.inl [3, 1])) none).ds.raster 1 r c =
        get2 p1 r c ∧
       ∀ b, b ≠ 1 → b ≠ 3 →
        (write ds store srcId (some (.inl [3, 1])) none).ds.raster b r c =
          ds.raster b r c) := by
  have h3 : 3 ∈ dsIndexes ds := by
    simp only [dsIndexes, List.mem_range'_1]
    omega
  have h1 : 1 ∈ dsIndexes ds := by
    simp only [dsIndexes, List.mem_range'_1]
    omega
  have hcb : checkBandsW ds [3, 1] = .ok [d, d] := by
    simp only [checkBandsW, if_pos h3, if_pos h1, okBind, hd0, hd2]
  have hud : uniqueDtype ds [d, d] = .ok d := by
    apply uniqueDtype_const
    · intro x hx
      rcases List.mem_cons.mp hx with rfl | hx2
      · rfl
      · exact (List.mem_singleton.mp hx2)
    · simp
  have hval : gdalValidate (ds.height : Int) (ds.width : Int) 0 0
      (ds.width : Int) (ds.height : Int) 2 (buf3H ([p0, p1] : Buf3))
      (buf3W ([p0, p1] : Buf3)) = none := by
    have hb3 : buf3H ([p0, p1] : Buf3) = ds.height := by
      simp only [buf3H, List.headD_cons]
      exact hp0h
    have hb4 : buf3W ([p0, p1] : Buf3) = ds.width := by
      simp only [buf3W, List.headD_cons]
      exact hp0w
    rw [hb3, hb4]
    unfold gdalValidate
    rw [if_neg (by omega), if_neg (by omega), if_neg (by omega),
      if_neg (by omega)]
  have hwr : write ds store srcId (some (.inl [3, 1])) none =
      ⟨store,
        Dataset.mk ds.height ds.width ds.count ds.dtypes ds.nodatavals
          ds.maskFlags ds.colorinterp1Red ds.colorinterp4Alpha
          (gdalWriteData ds.raster [3, 1] [p0, p1] 0 0 (ds.width : Int)
            (ds.height : Int)) ds.maskBytes,
        [⟨false, 0, 0, (ds.width : Int), (ds.height : Int), 2,
          buf3H ([p0, p1] : Buf3), buf3W ([p0, p1] : Buf3)⟩], none⟩ := by
    simp only [write, writeBody, hsrc]
    rw [if_neg (by simp)]
    simp only [hcb, hud]
    rw [if_neg (by simp)]
    simp only [if_true, hsrc, List.length_cons, List.length_nil, ioRect, hval]
  rw [hwr]
  refine ⟨rfl, ?_⟩
  intro r c hr hc
  have hzip : gdalWriteData ds.raster [3, 1] [p0, p1] 0 0
      (ds.width : Int) (ds.height : Int) =
      writePlane (writePlane ds.raster 3 p0 0 0 (ds.width : Int) (ds.height : Int))
        1 p1 0 0 (ds.width : Int) (ds.height : Int) := rfl
  refine ⟨?_, ?_, ?_⟩
  · show gdalWriteData ds.raster [3, 1] [p0, p1] 0 0 (ds.width : Int)
      (ds.height : Int) 3 r c = get2 p0 r c
    rw [hzip, writePlane_other _ _ _ _ _ _ _ _ _ _ (by omega),
      writePlane_self ds.raster 3 p0 ds.height ds.width r c hr hc hp0h hp0w]
  · show gdalWriteData ds.raster [3, 1] [p0, p1] 0 0 (ds.width : Int)
      (ds.height : Int) 1 r c = get2 p1 r c
    rw [hzip,
      writePlane_self _ 1 p1 ds.height ds.width r c hr hc hp1h hp1w]
  · intro b hb1 hb3
    show gdalWriteData ds.raster [3, 1] [p0, p1] 0 0 (ds.width : Int)
      (ds.height : Int) b r c = ds.raster b r c
    rw [hzip, writePlane_other _ _ _ _ _ _ _ _ _ _ hb1,
      writePlane_other _ _ _ _ _ _ _ _ _ _ hb3]

theorem write_band_map_order_witness :
    (write dsThreeBands storeTwoPlanes 0 (some (.inl [3, 1])) none).err = none ∧
    ∀ r c, r < dsThreeBands.height → c < dsThreeBands.width →
      ((write dsThreeBands storeTwoPlanes 0 (some (.inl [3, 1])) none).ds.raster
        3 r c = get2 [[5]] r c ∧
       (write dsThreeBands storeTwoPlanes 0 (some (.inl [3, 1])) none).ds.raster
        1 r c = get2 [[9]] r c ∧
       ∀ b, b ≠ 1 → b ≠ 3 →
        (write dsThreeBands storeTwoPlanes 0 (some (.inl [3, 1])) none).ds.raster
          b r c = dsThreeBands.raster b r c) :=
  write_band_map_order dsThreeBands storeTwoPlanes 0 [[5]] [[9]] DType.uint8
    (by decide) (by decide) (by decide) (by decide) (by decide) (by decide)
    (by decide) (by decide) (by decide) (by decide)

theorem writeBody_store (ds : Dataset) (idxs : List Nat) (st1 : Store)
    (bufId : Nat) (win? : Option Window) :
    (writeBody ds idxs st1 bufId win?).store = st1 ∨
    ∃ x, (writeBody ds idxs st1 bufId win?).store = st1 ++ [x] := by
  simp only [writeBody]
  by_cases h1 : (st1.getD bufId arrDefault).ndim ≠ 3 ∨
      (st1.getD bufId arrDefault).data.length ≠ idxs.length
  · rw [if_pos h1]; exact Or.inl rfl
  · rw [if_neg h1]
    cases hcb : checkBandsW ds idxs with
    | error e => simp only [hcb]; exact Or.inl trivial
    | ok dts =>
      simp only [hcb]
      cases hud : uniqueDtype ds dts with
      | error e => simp only [hud]; exact Or.inl trivial
      | ok dtype =>
        simp only [hud]
        by_cases h2 : (st1.getD bufId arrDefault).dtype ≠ dtype
        · rw [if_pos h2]; exact Or.inl rfl
        · rw [if_neg h2]
          by_cases h3 : (st1.getD bufId arrDefault).contiguous = true
          · rw [if_pos h3]
            split
            · exact Or.inl rfl
            · split
              · exact Or.inl rfl
              · exact Or.inl rfl
          · rw [if_neg h3]
            split
            · exact Or.inr ⟨_, rfl⟩
            · split
              · exact Or.inr ⟨_, rfl⟩
              · exact Or.inr ⟨_, rfl⟩

/-- Claim C10: a `write` call never mutates the caller's source array.
Fresh arrays are appended to the store by the scalar-index wrap and by
the `np.require` contiguity copy, and the native write transfer only
reads from its buffer, so after the call — whether it succeeded or
raised — the store still holds the caller's array unchanged at its
original position. -/
theorem write_preserves_caller_array (ds : Dataset) (store : Store)
    (srcId : Nat) (idx? : Option (List Nat ⊕ Nat)) (win? : Option Window)
    (h : srcId < store.length) :
    (write ds store srcId idx? win?).store.getD srcId arrDefault =
      store.getD srcId arrDefault := by
  have key : ∀ (idxs : List Nat) (st1 : Store) (bufId : Nat),
      store.length ≤ st1.length →
      st1.getD srcId arrDefault = store.getD srcId arrDefault →
      (writeBody ds idxs st1 bufId win?).store.getD srcId arrDefault =
        store.getD srcId arrDefault := by
    intro idxs st1 bufId hlen hst
    rcases writeBody_store ds idxs st1 bufId win? with heq | ⟨x, heq⟩
    · rw [heq, hst]
    · rw [heq, List.getD_append _ _ _ _ (by omega), hst]
  cases idx? with
  | none => exact key _ store srcId (le_refl _) rfl
  | some s =>
    cases s with
    | inl l => exact key _ store srcId (le_refl _) rfl
    | inr n =>
      exact key _ (store ++ [wrap2d (store.getD srcId arrDefault)]) store.length
        (by simp) (List.getD_append _ _ _ _ h)

theorem write_preserves_caller_array_witness :
    (write dsThreeBands storeTwoPlanes 0 (some (.inl [3, 1])) none).store.getD 0
      arrDefault = storeTwoPlanes.getD 0 arrDefault :=
  write_preserves_caller_array dsThreeBands storeTwoPlanes 0 (some (.inl [3, 1]))
    none (by decide)

end Raster
